import Mathlib

/-!
Shallow embedding of the ImageBot session/aggregation engine
(`bot.py` and `processor.py`).

Conversation state (`context.user_data`) holds the selected model string and
the list of buffered image blobs (`pending_images`).  Image blobs are treated
as opaque values of a type parameter `α`.  Telegram album events are modelled
by `AlbumEvent`; the media-group registry (`media_groups` in `bot.py`) is an
association list from group id to the collected group data.
-/

universe u

/-- Per-conversation state: the fields of `context.user_data` the handlers use. -/
structure UserData (α : Type u) where
  model : Option String
  pending_images : List α
deriving DecidableEq

/-- `DEFAULT_MODEL` from `run_telegram_bot`. -/
def DEFAULT_MODEL : String := "gpt-image-1.5"

/-- `set_model`: stores the model string for the user (nothing else). -/
def set_model {α : Type u} (ud : UserData α) (m : String) : UserData α :=
  { ud with model := some m }

/-- `get_model`: the selected model, defaulting to `DEFAULT_MODEL`. -/
def get_model {α : Type u} (ud : UserData α) : String :=
  ud.model.getD DEFAULT_MODEL

/-- `/start`: sets model `gpt-5.2`. -/
def cmd_start {α : Type u} (ud : UserData α) : UserData α := set_model ud "gpt-5.2"

/-- `/text`: sets model `gpt-5.2`. -/
def cmd_text {α : Type u} (ud : UserData α) : UserData α := set_model ud "gpt-5.2"

/-- `/image1`: sets model `gpt-image-1`. -/
def cmd_image1 {α : Type u} (ud : UserData α) : UserData α := set_model ud "gpt-image-1"

/-- `/image15`: sets model `gpt-image-1.5`. -/
def cmd_image15 {α : Type u} (ud : UserData α) : UserData α := set_model ud "gpt-image-1.5"

/-- `/dalle`: sets model `dall-e-2`. -/
def cmd_dalle {α : Type u} (ud : UserData α) : UserData α := set_model ud "dall-e-2"

/-- `/create`: sets model `create`. -/
def cmd_create {α : Type u} (ud : UserData α) : UserData α := set_model ud "create"

/-- `/dalle_gen`: sets model `dalle_create`. -/
def cmd_dalle_gen {α : Type u} (ud : UserData α) : UserData α := set_model ud "dalle_create"

/-- `TELEGRAM_MAX_MESSAGE` from `bot.py`. -/
def TELEGRAM_MAX_MESSAGE : Nat := 4000

/-- Python `str.rfind(c)` on a list of characters, as an optional index
(`none` plays the role of Python's `-1`). -/
def rfindChar (c : Char) : List Char → Option Nat
  | [] => none
  | x :: xs =>
    match rfindChar c xs with
    | some i => some (i + 1)
    | none => if x = c then some 0 else none

/-- One iteration of the `while` loop body of `chunk_text`:
`chunk = text[:max_len]`, then cut at the last newline of the window when its
index exceeds `max_len // 2`. -/
def cutChunk (maxLen : Nat) (text : List Char) : List Char :=
  match rfindChar '\n' (text.take maxLen) with
  | some last_nl =>
    if maxLen / 2 < last_nl then text.take (last_nl + 1) else text.take maxLen
  | none => text.take maxLen

/-- The `while text:` loop of `chunk_text`, with explicit fuel (the loop
consumes at least one character per iteration whenever `1 ≤ maxLen`, so fuel
`text.length` is enough; see `chunkLoop_join`). -/
def chunkLoop (maxLen : Nat) : Nat → List Char → List (List Char)
  | _, [] => []
  | 0, _ :: _ => []
  | fuel + 1, x :: xs =>
    let chunk := cutChunk maxLen (x :: xs)
    chunk :: chunkLoop maxLen fuel ((x :: xs).drop chunk.length)

/-- `chunk_text(text, max_len)` from `bot.py`. -/
def chunk_text (text : List Char) (maxLen : Nat) : List (List Char) :=
  if text.length ≤ maxLen then (if text = [] then [] else [text])
  else chunkLoop maxLen text.length text

/-- Python `str.strip()`: drop whitespace from both ends (modelled on the
string's character data, so that it evaluates by kernel reduction). -/
def pyStrip (s : String) : String :=
  ⟨((s.data.dropWhile Char.isWhitespace).reverse.dropWhile Char.isWhitespace).reverse⟩

/-- An entry of the `media_groups` registry:
`{file_ids, caption, user_id}` (the `first_update` transport handle is elided). -/
structure GroupData where
  file_ids : List String
  caption : String
  user_id : Nat
deriving DecidableEq

/-- One attachment event of an album: the Telegram message's media-group id,
the chosen file id, the (raw) caption and the sender. -/
structure AlbumEvent where
  media_group_id : String
  file_id : String
  caption : String
  user_id : Nat
deriving DecidableEq

/-- The `media_groups` dict: an association list keyed by group id. -/
abbrev Registry := List (String × GroupData)

/-- Membership test / read of the dict (`group_id in media_groups`). -/
def lookupGroup : Registry → String → Option GroupData
  | [], _ => none
  | (k, g) :: rest, gid => if k = gid then some g else lookupGroup rest gid

/-- In-place update of the entry with the given key. -/
def setGroup : Registry → String → GroupData → Registry
  | [], _, _ => []
  | (k, g) :: rest, gid, g' =>
    if k = gid then (k, g') :: rest else (k, g) :: setGroup rest gid g'

/-- Removal of the entry with the given key (`dict.pop`). -/
def eraseGroup : Registry → String → Registry
  | [], _ => []
  | (k, g) :: rest, gid => if k = gid then rest else (k, g) :: eraseGroup rest gid

/-- Keys of the registry are pairwise distinct (true of a Python dict). -/
abbrev keysNodup (reg : Registry) : Prop := (reg.map Prod.fst).Nodup

/-- The album branch of `handle_images`: an event whose `group_id` matches an
open group appends its file id (its caption is not recorded); a fresh
`group_id` opens a new group holding the stripped caption of the first event. -/
def handle_images_album (reg : Registry) (e : AlbumEvent) : Registry :=
  match lookupGroup reg e.media_group_id with
  | some g =>
    setGroup reg e.media_group_id { g with file_ids := g.file_ids ++ [e.file_id] }
  | none => (e.media_group_id, ⟨[e.file_id], pyStrip e.caption, e.user_id⟩) :: reg

/-- The head of `process_media_group_after_delay`:
`data = media_groups.pop(group_id, None); if not data: return`. -/
def flushStep (reg : Registry) (gid : String) : Registry × Option GroupData :=
  match lookupGroup reg gid with
  | none => (reg, none)
  | some g => (eraseGroup reg gid, some g)

/-- A sequence of flush invocations; returns the final registry and the list
of (group id, group data) pairs that actually got processed. -/
def runFlushes : Registry → List String → Registry × List (String × GroupData)
  | reg, [] => (reg, [])
  | reg, gid :: rest =>
    match flushStep reg gid with
    | (reg', none) => runFlushes reg' rest
    | (reg', some g) =>
      ((runFlushes reg' rest).1, (gid, g) :: (runFlushes reg' rest).2)

/-- The user-visible outcome of an image-handling step: the create-mode
"send text only" prompt, buffering with a status reply, or a dispatch to
`process_and_reply`.  `warned10` records whether the "at most 10 images"
warning was sent. -/
inductive ImagesAction (α : Type u)
  | createModePrompt : ImagesAction α
  | buffered (images : List α) (warned10 : Bool) : ImagesAction α
  | dispatch (images : List α) (prompt : String) (warned10 : Bool) : ImagesAction α
deriving DecidableEq

/-- The image list an `ImagesAction` retains (buffered or dispatched). -/
def actionImages {α : Type u} : ImagesAction α → List α
  | .createModePrompt => []
  | .buffered imgs _ => imgs
  | .dispatch imgs _ _ => imgs

/-- Whether the action carried the over-10 warning. -/
def actionWarned {α : Type u} : ImagesAction α → Bool
  | .createModePrompt => false
  | .buffered _ w => w
  | .dispatch _ _ w => w

/-- The `if len(images) > 10: images = images[-10:]` blocks of `bot.py`
(result list, and whether the warning was sent). -/
def truncate10 {α : Type u} (images : List α) : List α × Bool :=
  if 10 < images.length then (images.drop (images.length - 10), true)
  else (images, false)

/-- The image list assembled by the single-photo branch of `handle_images`:
pending images (discarded in text mode) plus the new photo. -/
def assembled_single {α : Type u} (ud : UserData α) (img : α) : List α :=
  (if get_model ud = "gpt-5.2" then [] else ud.pending_images) ++ [img]

/-- The single-photo (non-album) part of `handle_images`. -/
def handle_images_single {α : Type u} (ud : UserData α) (img : α) (caption0 : String) :
    UserData α × ImagesAction α :=
  if get_model ud = "create" ∨ get_model ud = "dalle_create" then
    if pyStrip caption0 ≠ "" then
      ({ ud with pending_images := [] }, .dispatch [] (pyStrip caption0) false)
    else (ud, .createModePrompt)
  else
    if pyStrip caption0 ≠ "" then
      ({ ud with pending_images := [] },
        .dispatch (truncate10 (assembled_single ud img)).1 (pyStrip caption0)
          (truncate10 (assembled_single ud img)).2)
    else
      ({ ud with pending_images := (truncate10 (assembled_single ud img)).1 },
        .buffered (truncate10 (assembled_single ud img)).1
          (truncate10 (assembled_single ud img)).2)

/-- The image list assembled by `process_media_group_after_delay`: downloaded
album images, merged with the pending buffer (text mode keeps only the first
downloaded image and ignores the buffer). -/
def flush_images {α : Type u} (ud : UserData α) (g : GroupData) (download : String → α) :
    List α :=
  if get_model ud = "gpt-5.2" then (g.file_ids.map download).take 1
  else ud.pending_images ++ g.file_ids.map download

/-- The body of `process_media_group_after_delay` after the pop succeeded,
acting on the owner's user data. -/
def process_media_group {α : Type u} (ud : UserData α) (g : GroupData)
    (download : String → α) : UserData α × ImagesAction α :=
  if get_model ud = "create" ∨ get_model ud = "dalle_create" then
    if g.caption ≠ "" then
      ({ ud with pending_images := [] }, .dispatch [] g.caption false)
    else ({ ud with pending_images := [] }, .createModePrompt)
  else
    if g.caption ≠ "" then
      ({ ud with pending_images := [] },
        .dispatch (truncate10 (flush_images ud g download)).1 g.caption
          (truncate10 (flush_images ud g download)).2)
    else
      ({ ud with pending_images := (truncate10 (flush_images ud g download)).1 },
        .buffered (truncate10 (flush_images ud g download)).1
          (truncate10 (flush_images ud g download)).2)

/-- The user-visible outcome of `handle_text`. -/
inductive TextAction (α : Type u)
  | promptEnterText : TextAction α
  | rejectNoImage : TextAction α
  | dispatch (images : List α) (prompt : String) (truncWarned : Bool) : TextAction α
deriving DecidableEq

/-- The marker appended by the prompt-truncation branches of `handle_text`. -/
def TRUNCATION_MARKER : String := "\n\n[... обрезано]"

/-- `if len(text) > n: text = text[:n] + marker` (result, and whether the
truncation warning was sent). -/
def truncateAt (n : Nat) (t : String) : String × Bool :=
  if n < t.length then (t.take n ++ TRUNCATION_MARKER, true) else (t, false)

/-- `handle_text` from `bot.py`. -/
def handle_text {α : Type u} (ud : UserData α) (text0 : String) :
    UserData α × TextAction α :=
  if get_model ud = "create" then
    if pyStrip text0 = "" then (ud, .promptEnterText)
    else ({ ud with pending_images := [] },
      .dispatch [] (truncateAt 4000 (pyStrip text0)).1 (truncateAt 4000 (pyStrip text0)).2)
  else if get_model ud = "dalle_create" then
    if pyStrip text0 = "" then (ud, .promptEnterText)
    else ({ ud with pending_images := [] },
      .dispatch [] (truncateAt 1000 (pyStrip text0)).1 (truncateAt 1000 (pyStrip text0)).2)
  else if get_model ud = "gpt-5.2" then
    if pyStrip text0 = "" then (ud, .promptEnterText)
    else ({ ud with pending_images := [] },
      .dispatch ud.pending_images (truncateAt 4000 (pyStrip text0)).1
        (truncateAt 4000 (pyStrip text0)).2)
  else if ud.pending_images.isEmpty then (ud, .rejectNoImage)
  else ({ ud with pending_images := [] },
    .dispatch ud.pending_images (truncateAt 4000 (pyStrip text0)).1
      (truncateAt 4000 (pyStrip text0)).2)

/-- Outcome of the off-loaded backend call made inside `process_and_reply`. -/
inductive Outcome (α : Type u)
  | okImage (result : α) (usage : Option String) : Outcome α
  | okText (text : List Char) : Outcome α
  | error (msg : String) : Outcome α
deriving DecidableEq

/-- Reply produced by `process_and_reply`. -/
inductive ReplyAction (α : Type u)
  | errorText (msg : String) : ReplyAction α
  | photoReply (result : α) (usage : Option String) : ReplyAction α
  | textParts (parts : List (List Char)) : ReplyAction α
  | emptyAnswer : ReplyAction α
deriving DecidableEq

/-- `process_and_reply`: calls the backend and renders the outcome.  In every
branch of the source the user data is only read, never written — in
particular a failed backend call does not restore `pending_images`. -/
def process_and_reply {α : Type u} (ud : UserData α) (images : List α)
    (prompt : String) (oc : Outcome α) : UserData α × ReplyAction α :=
  match oc with
  | .error msg => (ud, .errorText msg)
  | .okImage b u => (ud, .photoReply b u)
  | .okText t =>
    (ud, if chunk_text t TELEGRAM_MAX_MESSAGE = [] then .emptyAnswer
      else .textParts (chunk_text t TELEGRAM_MAX_MESSAGE))

namespace ImageProcessor

/-- `ImageProcessor.MODEL`. -/
def MODEL : String := "gpt-image-1.5"

/-- `ImageProcessor.SYSTEM_PROMPT` (prepended to every edit prompt). -/
def SYSTEM_PROMPT : String :=
  "Критически важно: используй ТОЛЬКО приложенные изображения. Не добавляй дополнительных людей, лиц или персонажей. Строго следуй инструкциям пользователя без отклонений.\n\n"

/-- The argument record of the `client.images.edit` call. -/
structure EditCall (α : Type u) where
  model : String
  image : List α
  prompt : String
  quality : String
  size : String
  output_format : String
deriving DecidableEq

/-- The `ValueError`s `ImageProcessor.process` can raise before calling the API. -/
inductive ProcError
  | badImageCount : ProcError
  | emptyPrompt : ProcError
deriving DecidableEq

/-- `ImageProcessor.process` up to the `images.edit` call: validation,
DALL-E 2 truncation to a single image, and the assembled call arguments. -/
def process {α : Type u} (images : List α) (prompt : String) (model? : Option String)
    (quality size output_format : String) : Except ProcError (EditCall α) :=
  if ¬ (1 ≤ images.length ∧ images.length ≤ 10) then .error .badImageCount
  else if pyStrip prompt = "" then .error .emptyPrompt
  else .ok ⟨model?.getD MODEL,
    (if model?.getD MODEL = "dall-e-2" ∧ 1 < images.length then images.take 1 else images),
    SYSTEM_PROMPT ++ pyStrip prompt, quality,
    (if model?.getD MODEL = "dall-e-2" ∧ 1 < images.length then "1024x1024" else size),
    output_format⟩

end ImageProcessor

theorem rfindChar_lt_length {c : Char} :
    ∀ {l : List Char} {i : Nat}, rfindChar c l = some i → i < l.length := by
  intro l
  induction l with
  | nil => intro i h; simp [rfindChar] at h
  | cons x xs ih =>
    intro i h
    rw [rfindChar] at h
    cases hr : rfindChar c xs with
    | some j =>
      rw [hr] at h
      cases h
      have := ih hr
      simp only [List.length_cons]
      omega
    | none =>
      rw [hr] at h
      by_cases hx : x = c
      · rw [if_pos hx] at h
        cases h
        simp
      · rw [if_neg hx] at h
        cases h

theorem take_length_take {β : Type u} (l : List β) (k : Nat) :
    l.take (l.take k).length = l.take k := by
  rcases Nat.le_total k l.length with h | h
  · rw [List.length_take, Nat.min_eq_left h]
  · rw [List.length_take, Nat.min_eq_right h, List.take_length,
      List.take_of_length_le h]

theorem cutChunk_of_none {maxLen : Nat} {text : List Char}
    (h : rfindChar '\n' (text.take maxLen) = none) :
    cutChunk maxLen text = text.take maxLen := by
  unfold cutChunk; rw [h]

theorem cutChunk_of_some {maxLen last_nl : Nat} {text : List Char}
    (h : rfindChar '\n' (text.take maxLen) = some last_nl) :
    cutChunk maxLen text =
      if maxLen / 2 < last_nl then text.take (last_nl + 1) else text.take maxLen := by
  unfold cutChunk; rw [h]

/-- For positive `maxLen`, every possible cut is `text.take k` with `1 ≤ k ≤ maxLen`. -/
theorem cutChunk_eq_take (maxLen : Nat) (text : List Char) (hml : 1 ≤ maxLen) :
    ∃ k, cutChunk maxLen text = text.take k ∧ 1 ≤ k ∧ k ≤ maxLen := by
  cases hr : rfindChar '\n' (text.take maxLen) with
  | none =>
    rw [cutChunk_of_none hr]
    exact ⟨maxLen, rfl, hml, le_refl _⟩
  | some last_nl =>
    rw [cutChunk_of_some hr]
    by_cases hcut : maxLen / 2 < last_nl
    · rw [if_pos hcut]
      exact ⟨last_nl + 1, rfl, by omega, by
        have := rfindChar_lt_length hr
        rw [List.length_take] at this
        omega⟩
    · rw [if_neg hcut]
      exact ⟨maxLen, rfl, hml, le_refl _⟩

/-- The cut chunk is a prefix of the text, has length at most `maxLen`, and is
nonempty whenever the text is nonempty and `1 ≤ maxLen`. -/
theorem cutChunk_spec (maxLen : Nat) (text : List Char) :
    cutChunk maxLen text = text.take (cutChunk maxLen text).length
      ∧ (cutChunk maxLen text).length ≤ maxLen
      ∧ (text ≠ [] → 1 ≤ maxLen → cutChunk maxLen text ≠ []) := by
  have hlen : ∀ k, (text.take k).length ≤ text.length := by
    intro k; rw [List.length_take]; omega
  refine ⟨?_, ?_, ?_⟩
  · cases hr : rfindChar '\n' (text.take maxLen) with
    | none => rw [cutChunk_of_none hr]; exact (take_length_take text maxLen).symm
    | some last_nl =>
      rw [cutChunk_of_some hr]
      by_cases hcut : maxLen / 2 < last_nl
      · rw [if_pos hcut]; exact (take_length_take text (last_nl + 1)).symm
      · rw [if_neg hcut]; exact (take_length_take text maxLen).symm
  · cases hr : rfindChar '\n' (text.take maxLen) with
    | none => rw [cutChunk_of_none hr, List.length_take]; omega
    | some last_nl =>
      rw [cutChunk_of_some hr]
      by_cases hcut : maxLen / 2 < last_nl
      · rw [if_pos hcut, List.length_take]
        have := rfindChar_lt_length hr
        rw [List.length_take] at this
        omega
      · rw [if_neg hcut, List.length_take]; omega
  · intro hne hml
    rcases cutChunk_eq_take maxLen text hml with ⟨k, hk, hk1, _⟩
    rw [hk]
    have htl : 1 ≤ text.length := List.length_pos.mpr hne
    intro hcontra
    have hlen0 := congrArg List.length hcontra
    rw [List.length_take, List.length_nil] at hlen0
    omega

theorem chunkLoop_zero (maxLen : Nat) (text : List Char) :
    chunkLoop maxLen 0 text = [] := by
  cases text <;> rfl

theorem chunkLoop_nil (maxLen fuel : Nat) : chunkLoop maxLen fuel [] = [] := by
  cases fuel <;> rfl

theorem chunkLoop_cons (maxLen fuel : Nat) (x : Char) (xs : List Char) :
    chunkLoop maxLen (fuel + 1) (x :: xs) =
      cutChunk maxLen (x :: xs) ::
        chunkLoop maxLen fuel ((x :: xs).drop (cutChunk maxLen (x :: xs)).length) := by
  rfl

/-- With fuel at least the length of the text and positive `maxLen`, the loop
consumes the whole text: concatenating the chunks gives the text back. -/
theorem chunkLoop_join (maxLen : Nat) (hml : 1 ≤ maxLen) :
    ∀ (fuel : Nat) (text : List Char), text.length ≤ fuel →
      (chunkLoop maxLen fuel text).flatten = text := by
  intro fuel
  induction fuel with
  | zero =>
    intro text h
    have : text = [] := List.eq_nil_of_length_eq_zero (by omega)
    subst this
    rfl
  | succ n ih =>
    intro text h
    cases text with
    | nil => rfl
    | cons x xs =>
      rw [chunkLoop_cons, List.flatten_cons]
      have hspec := cutChunk_spec maxLen (x :: xs)
      have hne : cutChunk maxLen (x :: xs) ≠ [] := hspec.2.2 (by simp) hml
      have hlen1 : 1 ≤ (cutChunk maxLen (x :: xs)).length := List.length_pos.mpr hne
      rw [ih ((x :: xs).drop (cutChunk maxLen (x :: xs)).length)
        (by rw [List.length_drop]; simp only [List.length_cons] at h ⊢; omega)]
      rcases cutChunk_eq_take maxLen (x :: xs) hml with ⟨k, hk, hk1, hk2⟩
      rw [hk, List.length_take]
      rcases le_or_lt k (x :: xs).length with hle | hlt
      · rw [Nat.min_eq_left hle, List.take_append_drop]
      · rw [Nat.min_eq_right (Nat.le_of_lt hlt),
          List.take_of_length_le (Nat.le_of_lt hlt), List.drop_length, List.append_nil]

/-- Every chunk the loop emits is nonempty and no longer than `maxLen`. -/
theorem chunkLoop_mem (maxLen : Nat) (hml : 1 ≤ maxLen) :
    ∀ (fuel : Nat) (text c : List Char), c ∈ chunkLoop maxLen fuel text →
      c ≠ [] ∧ c.length ≤ maxLen := by
  intro fuel
  induction fuel with
  | zero =>
    intro text c hc
    rw [chunkLoop_zero] at hc
    cases hc
  | succ n ih =>
    intro text c hc
    cases text with
    | nil => rw [chunkLoop_nil] at hc; cases hc
    | cons x xs =>
      rw [chunkLoop_cons] at hc
      rcases List.mem_cons.mp hc with h | h
      · subst h
        have hspec := cutChunk_spec maxLen (x :: xs)
        exact ⟨hspec.2.2 (by simp) hml, hspec.2.1⟩
      · exact ih _ _ h

theorem chunk_text_of_le {text : List Char} {maxLen : Nat} (h : text.length ≤ maxLen) :
    chunk_text text maxLen = if text = [] then [] else [text] := by
  unfold chunk_text
  rw [if_pos h]

theorem chunk_text_of_gt {text : List Char} {maxLen : Nat} (h : maxLen < text.length) :
    chunk_text text maxLen = chunkLoop maxLen text.length text := by
  unfold chunk_text
  rw [if_neg (by omega)]

/-- C4: for every positive `max_len`, `chunk_text` returns the empty sequence
on empty input and the single-element sequence `[text]` when
`0 < len(text) ≤ max_len`; for all texts concatenating the returned chunks
reproduces the original text; and re-applying `chunk_text` to any returned
chunk returns that chunk unchanged. -/
theorem chunk_text_props_C4 (maxLen : Nat) (hml : 1 ≤ maxLen) :
    chunk_text [] maxLen = []
      ∧ (∀ text : List Char, text ≠ [] → text.length ≤ maxLen →
          chunk_text text maxLen = [text])
      ∧ (∀ text : List Char, (chunk_text text maxLen).flatten = text)
      ∧ (∀ text c : List Char, c ∈ chunk_text text maxLen →
          chunk_text c maxLen = [c]) := by
  refine ⟨?_, ?_, ?_, ?_⟩
  · rw [chunk_text_of_le (by simp), if_pos rfl]
  · intro text hne hle
    rw [chunk_text_of_le hle, if_neg hne]
  · intro text
    rcases le_or_lt text.length maxLen with h | h
    · rw [chunk_text_of_le h]
      by_cases hnil : text = []
      · rw [if_pos hnil, hnil]; rfl
      · rw [if_neg hnil]; simp
    · rw [chunk_text_of_gt h]
      exact chunkLoop_join maxLen hml _ _ (le_refl _)
  · intro text c hc
    rcases le_or_lt text.length maxLen with h | h
    · rw [chunk_text_of_le h] at hc
      by_cases hnil : text = []
      · rw [if_pos hnil] at hc; cases hc
      · rw [if_neg hnil] at hc
        have hcx : c = text := List.mem_singleton.mp hc
        subst hcx
        rw [chunk_text_of_le h, if_neg hnil]
    · rw [chunk_text_of_gt h] at hc
      have hm := chunkLoop_mem maxLen hml _ _ _ hc
      rw [chunk_text_of_le hm.2, if_neg hm.1]

/-- C4 witness: the properties instantiated at `max_len = 3`. -/
theorem chunk_text_props_C4_witness : chunk_text [] 3 = [] :=
  (chunk_text_props_C4 3 (by decide)).1

/-- A 13-character text whose only newline sits at index 2 — inside the first
half of a 10-character window. -/
def c5text : List Char :=
  ['a', 'b', '\n', 'c', 'd', 'e', 'f', 'g', 'h', 'i', 'j', 'k', 'l']

/-- C5 counterexample: with `max_len = 10` the last newline of the window of
`c5text` exists and lies in the first half (index `2 ≤ 10 / 2`), yet
`chunk_text` does NOT cut at that newline: the first emitted chunk is the full
10-character window, not `text[:3]`. -/
theorem chunk_text_C5_counterexample :
    rfindChar '\n' (c5text.take 10) = some 2
      ∧ 2 ≤ 10 / 2
      ∧ chunk_text c5text 10 = [c5text.take 10, ['j', 'k', 'l']]
      ∧ (chunk_text c5text 10).head? ≠ some (c5text.take (2 + 1)) := by
  decide

/-- The first chunk emitted on a long text is `cutChunk` of the text. -/
theorem chunk_text_head {maxLen : Nat} {text : List Char}
    (hlong : maxLen < text.length) :
    (chunk_text text maxLen).head? = some (cutChunk maxLen text) := by
  rw [chunk_text_of_gt hlong]
  cases text with
  | nil => simp at hlong
  | cons x xs =>
    rw [List.length_cons, chunkLoop_cons]
    rfl

/-- C5 amended: for every text longer than a positive `max_len`, `chunk_text`
cuts a window of `max_len` characters, except that when the last newline of
the window lies strictly past `max_len // 2` — in the second half of the
window, not the first — it cuts just after that newline; it advances past each
emitted chunk until the remainder is empty (so the chunks concatenate back to
the text), and it never emits an empty chunk. -/
theorem chunk_text_C5_amended (maxLen : Nat) (text : List Char)
    (hml : 1 ≤ maxLen) (hlong : maxLen < text.length) :
    (∀ last_nl : Nat, rfindChar '\n' (text.take maxLen) = some last_nl →
        maxLen / 2 < last_nl →
        (chunk_text text maxLen).head? = some (text.take (last_nl + 1)))
      ∧ (∀ last_nl : Nat, rfindChar '\n' (text.take maxLen) = some last_nl →
          ¬ maxLen / 2 < last_nl →
          (chunk_text text maxLen).head? = some (text.take maxLen))
      ∧ (rfindChar '\n' (text.take maxLen) = none →
          (chunk_text text maxLen).head? = some (text.take maxLen))
      ∧ (chunk_text text maxLen).flatten = text
      ∧ (∀ c ∈ chunk_text text maxLen, c ≠ []) := by
  refine ⟨?_, ?_, ?_, ?_, ?_⟩
  · intro last_nl hr hcut
    rw [chunk_text_head hlong, cutChunk_of_some hr, if_pos hcut]
  · intro last_nl hr hcut
    rw [chunk_text_head hlong, cutChunk_of_some hr, if_neg hcut]
  · intro hr
    rw [chunk_text_head hlong, cutChunk_of_none hr]
  · rw [chunk_text_of_gt hlong]
    exact chunkLoop_join maxLen hml _ _ (le_refl _)
  · intro c hc
    rw [chunk_text_of_gt hlong] at hc
    exact (chunkLoop_mem maxLen hml _ _ _ hc).1

/-- C5 amended, witness: the amended statement applied to `c5text` with
`max_len = 10`; the chunks concatenate back to the text. -/
theorem chunk_text_C5_amended_witness :
    (chunk_text c5text 10).flatten = c5text :=
  (chunk_text_C5_amended 10 c5text (by decide) (by decide)).2.2.2.1

theorem truncate10_length_le {α : Type u} (l : List α) :
    (truncate10 l).1.length ≤ 10 := by
  unfold truncate10
  by_cases h : 10 < l.length
  · rw [if_pos h]
    simp only [List.length_drop]
    omega
  · rw [if_neg h]
    show l.length ≤ 10
    omega

theorem truncate10_of_gt {α : Type u} {l : List α} (h : 10 < l.length) :
    truncate10 l = (l.drop (l.length - 10), true) := by
  unfold truncate10
  rw [if_pos h]

/-- C1: after the single-photo handler and after an album flush the pending
buffer again holds at most 10 images; and in the modes that add images, when
the assembled list would exceed 10 the retained images are the most recently
received 10 and the warning is sent. -/
theorem pending_cap_C1 {α : Type u} (ud : UserData α) (img : α) (caption : String)
    (g : GroupData) (download : String → α)
    (hcap : ud.pending_images.length ≤ 10) :
    ((handle_images_single ud img caption).1.pending_images.length ≤ 10
      ∧ (¬ (get_model ud = "create" ∨ get_model ud = "dalle_create") →
          10 < (assembled_single ud img).length →
            actionImages (handle_images_single ud img caption).2
                = (assembled_single ud img).drop ((assembled_single ud img).length - 10)
              ∧ actionWarned (handle_images_single ud img caption).2 = true))
    ∧ ((process_media_group ud g download).1.pending_images.length ≤ 10
      ∧ (¬ (get_model ud = "create" ∨ get_model ud = "dalle_create") →
          10 < (flush_images ud g download).length →
            actionImages (process_media_group ud g download).2
                = (flush_images ud g download).drop
                    ((flush_images ud g download).length - 10)
              ∧ actionWarned (process_media_group ud g download).2 = true)) := by
  refine ⟨⟨?_, ?_⟩, ?_, ?_⟩
  · by_cases hcr : get_model ud = "create" ∨ get_model ud = "dalle_create"
    · unfold handle_images_single
      rw [if_pos hcr]
      by_cases hc : pyStrip caption ≠ ""
      · rw [if_pos hc]; simp
      · rw [if_neg hc]; exact hcap
    · unfold handle_images_single
      rw [if_neg hcr]
      by_cases hc : pyStrip caption ≠ ""
      · rw [if_pos hc]; simp
      · rw [if_neg hc]
        exact truncate10_length_le _
  · intro hcr hover
    unfold handle_images_single
    rw [if_neg hcr, truncate10_of_gt hover]
    by_cases hc : pyStrip caption ≠ ""
    · rw [if_pos hc]; exact ⟨rfl, rfl⟩
    · rw [if_neg hc]; exact ⟨rfl, rfl⟩
  · by_cases hcr : get_model ud = "create" ∨ get_model ud = "dalle_create"
    · unfold process_media_group
      rw [if_pos hcr]
      by_cases hc : g.caption ≠ ""
      · rw [if_pos hc]; simp
      · rw [if_neg hc]; simp
    · unfold process_media_group
      rw [if_neg hcr]
      by_cases hc : g.caption ≠ ""
      · rw [if_pos hc]; simp
      · rw [if_neg hc]
        exact truncate10_length_le _
  · intro hcr hover
    unfold process_media_group
    rw [if_neg hcr, truncate10_of_gt hover]
    by_cases hc : g.caption ≠ ""
    · rw [if_pos hc]; exact ⟨rfl, rfl⟩
    · rw [if_neg hc]; exact ⟨rfl, rfl⟩

/-- C1 witness: ten buffered images plus an eleventh photo — the handler keeps
the ten most recent images and warns. -/
theorem pending_cap_C1_witness :
    actionImages (handle_images_single
          (⟨some "gpt-image-1", [0, 1, 2, 3, 4, 5, 6, 7, 8, 9]⟩ : UserData Nat) 10 "go").2
        = (assembled_single
              (⟨some "gpt-image-1", [0, 1, 2, 3, 4, 5, 6, 7, 8, 9]⟩ : UserData Nat) 10).drop
            ((assembled_single
              (⟨some "gpt-image-1", [0, 1, 2, 3, 4, 5, 6, 7, 8, 9]⟩ : UserData Nat) 10).length - 10)
      ∧ actionWarned (handle_images_single
          (⟨some "gpt-image-1", [0, 1, 2, 3, 4, 5, 6, 7, 8, 9]⟩ : UserData Nat) 10 "go").2
          = true :=
  (pending_cap_C1 (⟨some "gpt-image-1", [0, 1, 2, 3, 4, 5, 6, 7, 8, 9]⟩ : UserData Nat)
    10 "go" ⟨[], "", 0⟩ (fun _ => 0) (by decide)).1.2 (by decide) (by decide)

/-- C2 counterexample: `/image1` invoked with one buffered image leaves the
pending buffer non-empty — a mode switch does not clear pending attachments. -/
theorem mode_switch_C2_counterexample :
    (cmd_image1 (⟨some "gpt-5.2", [0]⟩ : UserData Nat)).pending_images ≠ [] := by
  decide

/-- C2 amended: every mode-switch command stores the new model and leaves the
pending attachment buffer exactly as it was before the switch. -/
theorem mode_switch_C2_amended {α : Type u} (ud : UserData α) :
    ((cmd_start ud).pending_images = ud.pending_images
        ∧ (cmd_start ud).model = some "gpt-5.2")
      ∧ ((cmd_text ud).pending_images = ud.pending_images
        ∧ (cmd_text ud).model = some "gpt-5.2")
      ∧ ((cmd_image1 ud).pending_images = ud.pending_images
        ∧ (cmd_image1 ud).model = some "gpt-image-1")
      ∧ ((cmd_image15 ud).pending_images = ud.pending_images
        ∧ (cmd_image15 ud).model = some "gpt-image-1.5")
      ∧ ((cmd_dalle ud).pending_images = ud.pending_images
        ∧ (cmd_dalle ud).model = some "dall-e-2")
      ∧ ((cmd_create ud).pending_images = ud.pending_images
        ∧ (cmd_create ud).model = some "create")
      ∧ ((cmd_dalle_gen ud).pending_images = ud.pending_images
        ∧ (cmd_dalle_gen ud).model = some "dalle_create") :=
  ⟨⟨rfl, rfl⟩, ⟨rfl, rfl⟩, ⟨rfl, rfl⟩, ⟨rfl, rfl⟩, ⟨rfl, rfl⟩, ⟨rfl, rfl⟩, ⟨rfl, rfl⟩⟩

/-- In any model other than `create`, `dalle_create` and `gpt-5.2`,
`handle_text` either rejects for lack of images or clears the buffer and
dispatches it whole. -/
theorem handle_text_edit_case {α : Type u} (ud : UserData α) (text : String)
    (h1 : get_model ud ≠ "create") (h2 : get_model ud ≠ "dalle_create")
    (h3 : get_model ud ≠ "gpt-5.2") :
    handle_text ud text =
      if ud.pending_images.isEmpty then (ud, TextAction.rejectNoImage)
      else ({ ud with pending_images := [] },
        TextAction.dispatch ud.pending_images (truncateAt 4000 (pyStrip text)).1
          (truncateAt 4000 (pyStrip text)).2) := by
  unfold handle_text
  rw [if_neg h1, if_neg h2, if_neg h3]

/-- C8: in every edit mode (`gpt-image-1`, `gpt-image-1.5`, `dall-e-2`), a text
instruction arriving with zero buffered images is rejected with the
"send an image first" diagnostic: no dispatch happens and the user data is
returned unchanged. -/
theorem edit_no_image_C8 {α : Type u} (ud : UserData α) (text : String)
    (hm : get_model ud = "gpt-image-1" ∨ get_model ud = "gpt-image-1.5"
      ∨ get_model ud = "dall-e-2")
    (hp : ud.pending_images = []) :
    handle_text ud text = (ud, TextAction.rejectNoImage) := by
  have h1 : get_model ud ≠ "create" := by rcases hm with h | h | h <;> rw [h] <;> decide
  have h2 : get_model ud ≠ "dalle_create" := by
    rcases hm with h | h | h <;> rw [h] <;> decide
  have h3 : get_model ud ≠ "gpt-5.2" := by rcases hm with h | h | h <;> rw [h] <;> decide
  rw [handle_text_edit_case ud text h1 h2 h3, if_pos (by rw [hp]; rfl)]

/-- C8 witness: concrete rejection in `dall-e-2` mode with an empty buffer. -/
theorem edit_no_image_C8_witness :
    handle_text (⟨some "dall-e-2", []⟩ : UserData Nat) "make it blue"
      = ((⟨some "dall-e-2", []⟩ : UserData Nat), TextAction.rejectNoImage) :=
  edit_no_image_C8 (⟨some "dall-e-2", []⟩ : UserData Nat) "make it blue"
    (Or.inr (Or.inr rfl)) rfl

/-- C10: when an instruction dispatches in an edit mode, the pending buffer is
cleared before the backend call is made; a failing backend call does not
restore it, so after the failure the buffer is empty and re-sending an
instruction alone is rejected as having no images. -/
theorem dispatch_clears_C10 {α : Type u} (ud : UserData α) (text text2 msg : String)
    (hm : get_model ud = "gpt-image-1" ∨ get_model ud = "gpt-image-1.5"
      ∨ get_model ud = "dall-e-2")
    (hp : ud.pending_images ≠ []) :
    (handle_text ud text).2
        = TextAction.dispatch ud.pending_images (truncateAt 4000 (pyStrip text)).1
            (truncateAt 4000 (pyStrip text)).2
      ∧ (handle_text ud text).1.pending_images = []
      ∧ (process_and_reply (handle_text ud text).1 ud.pending_images
            (truncateAt 4000 (pyStrip text)).1 (Outcome.error msg)).1.pending_images = []
      ∧ handle_text (process_and_reply (handle_text ud text).1 ud.pending_images
            (truncateAt 4000 (pyStrip text)).1 (Outcome.error msg)).1 text2
          = ((handle_text ud text).1, TextAction.rejectNoImage) := by
  have h1 : get_model ud ≠ "create" := by rcases hm with h | h | h <;> rw [h] <;> decide
  have h2 : get_model ud ≠ "dalle_create" := by
    rcases hm with h | h | h <;> rw [h] <;> decide
  have h3 : get_model ud ≠ "gpt-5.2" := by rcases hm with h | h | h <;> rw [h] <;> decide
  have hne : ud.pending_images.isEmpty = false := by
    cases hl : ud.pending_images with
    | nil => exact absurd hl hp
    | cons a l => rfl
  rw [handle_text_edit_case ud text h1 h2 h3,
    if_neg (by rw [hne]; exact Bool.false_ne_true)]
  refine ⟨rfl, rfl, rfl, ?_⟩
  show handle_text { ud with pending_images := ([] : List α) } text2
      = ({ ud with pending_images := [] }, TextAction.rejectNoImage)
  rw [handle_text_edit_case { ud with pending_images := [] } text2 h1 h2 h3]
  exact if_pos rfl

/-- C10 witness: after a failed dispatch in `gpt-image-1` mode, the same
conversation's next instruction is rejected for lack of images. -/
theorem dispatch_clears_C10_witness :
    handle_text (process_and_reply
          (handle_text (⟨some "gpt-image-1", [5]⟩ : UserData Nat) "make").1 [5]
          (truncateAt 4000 (pyStrip "make")).1 (Outcome.error "boom")).1 "again"
      = ((handle_text (⟨some "gpt-image-1", [5]⟩ : UserData Nat) "make").1,
          TextAction.rejectNoImage) :=
  (dispatch_clears_C10 (⟨some "gpt-image-1", [5]⟩ : UserData Nat) "make" "again" "boom"
    (Or.inl rfl) (by decide)).2.2.2

theorem lookup_setGroup_self (reg : Registry) (gid : String) (g g' : GroupData)
    (h : lookupGroup reg gid = some g) :
    lookupGroup (setGroup reg gid g') gid = some g' := by
  induction reg with
  | nil => simp [lookupGroup] at h
  | cons p rest ih =>
    obtain ⟨k, gg⟩ := p
    by_cases hk : k = gid
    · rw [setGroup, if_pos hk, lookupGroup, if_pos hk]
    · rw [lookupGroup, if_neg hk] at h
      rw [setGroup, if_neg hk, lookupGroup, if_neg hk]
      exact ih h

theorem lookup_setGroup_ne (reg : Registry) (k' gid : String) (g' : GroupData)
    (h : k' ≠ gid) :
    lookupGroup (setGroup reg k' g') gid = lookupGroup reg gid := by
  induction reg with
  | nil => rfl
  | cons p rest ih =>
    obtain ⟨k, gg⟩ := p
    by_cases hk : k = k'
    · have hkg : ¬ k = gid := by rw [hk]; exact h
      rw [setGroup, if_pos hk, lookupGroup, if_neg hkg, lookupGroup, if_neg hkg]
    · rw [setGroup, if_neg hk]
      by_cases hkgid : k = gid
      · rw [lookupGroup, if_pos hkgid, lookupGroup, if_pos hkgid]
      · rw [lookupGroup, if_neg hkgid, lookupGroup, if_neg hkgid]
        exact ih

/-- Folding further events over a registry that already holds a group for
`gid` appends exactly the file ids of the `gid`-events, in arrival order,
leaving caption and owner untouched. -/
theorem album_fold_some :
    ∀ (events : List AlbumEvent) (reg : Registry) (gid : String) (g : GroupData),
      lookupGroup reg gid = some g →
      lookupGroup (events.foldl handle_images_album reg) gid
        = some ⟨g.file_ids
              ++ (events.filter (fun e => e.media_group_id == gid)).map AlbumEvent.file_id,
            g.caption, g.user_id⟩ := by
  intro events
  induction events with
  | nil =>
    intro reg gid g h
    simp only [List.foldl_nil, List.filter_nil, List.map_nil, List.append_nil]
    exact h
  | cons e es ih =>
    intro reg gid g h
    rw [List.foldl_cons]
    by_cases hg : e.media_group_id = gid
    · have hl : lookupGroup reg e.media_group_id = some g := by rw [hg]; exact h
      have hstep : handle_images_album reg e
          = setGroup reg e.media_group_id { g with file_ids := g.file_ids ++ [e.file_id] } := by
        unfold handle_images_album
        rw [hl]
      have hl2 : lookupGroup (handle_images_album reg e) gid
          = some { g with file_ids := g.file_ids ++ [e.file_id] } := by
        rw [hstep, hg]
        exact lookup_setGroup_self reg gid g _ h
      rw [ih (handle_images_album reg e) gid _ hl2,
        List.filter_cons_of_pos (by exact beq_iff_eq.mpr hg), List.map_cons]
      simp
    · have hpred : (e.media_group_id == gid) = false := beq_eq_false_iff_ne.mpr hg
      rw [List.filter_cons_of_neg (by rw [hpred]; exact Bool.false_ne_true)]
      cases hlk : lookupGroup reg e.media_group_id with
      | some g0 =>
        have hstep : handle_images_album reg e
            = setGroup reg e.media_group_id { g0 with file_ids := g0.file_ids ++ [e.file_id] } := by
          unfold handle_images_album
          rw [hlk]
        refine ih (handle_images_album reg e) gid g ?_
        rw [hstep, lookup_setGroup_ne reg e.media_group_id gid _ hg]
        exact h
      | none =>
        have hstep : handle_images_album reg e
            = (e.media_group_id, ⟨[e.file_id], pyStrip e.caption, e.user_id⟩) :: reg := by
          unfold handle_images_album
          rw [hlk]
        refine ih (handle_images_album reg e) gid g ?_
        rw [hstep, lookupGroup, if_neg hg]
        exact h

/-- Folding events over a registry with no open group for `gid` creates the
group at the first `gid`-event and collects exactly the `gid`-events' file ids
in arrival order, with the first event's stripped caption. -/
theorem album_fold_none :
    ∀ (events : List AlbumEvent) (reg : Registry) (gid : String),
      lookupGroup reg gid = none →
      lookupGroup (events.foldl handle_images_album reg) gid
        = match events.filter (fun e => e.media_group_id == gid) with
          | [] => none
          | e0 :: es =>
            some ⟨e0.file_id :: es.map AlbumEvent.file_id, pyStrip e0.caption, e0.user_id⟩ := by
  intro events
  induction events with
  | nil =>
    intro reg gid h
    simp only [List.foldl_nil, List.filter_nil]
    exact h
  | cons e es ih =>
    intro reg gid h
    rw [List.foldl_cons]
    by_cases hg : e.media_group_id = gid
    · have hl : lookupGroup reg e.media_group_id = none := by rw [hg]; exact h
      have hstep : handle_images_album reg e
          = (e.media_group_id, ⟨[e.file_id], pyStrip e.caption, e.user_id⟩) :: reg := by
        unfold handle_images_album
        rw [hl]
      have hl2 : lookupGroup (handle_images_album reg e) gid
          = some ⟨[e.file_id], pyStrip e.caption, e.user_id⟩ := by
        rw [hstep, lookupGroup, if_pos hg]
      rw [album_fold_some es (handle_images_album reg e) gid _ hl2,
        List.filter_cons_of_pos (by exact beq_iff_eq.mpr hg)]
      rw [List.singleton_append]
    · have hpred : (e.media_group_id == gid) = false := beq_eq_false_iff_ne.mpr hg
      rw [List.filter_cons_of_neg (by rw [hpred]; exact Bool.false_ne_true)]
      cases hlk : lookupGroup reg e.media_group_id with
      | some g0 =>
        have hstep : handle_images_album reg e
            = setGroup reg e.media_group_id { g0 with file_ids := g0.file_ids ++ [e.file_id] } := by
          unfold handle_images_album
          rw [hlk]
        refine ih (handle_images_album reg e) gid ?_
        rw [hstep, lookup_setGroup_ne reg e.media_group_id gid _ hg]
        exact h
      | none =>
        have hstep : handle_images_album reg e
            = (e.media_group_id, ⟨[e.file_id], pyStrip e.caption, e.user_id⟩) :: reg := by
          unfold handle_images_album
          rw [hlk]
        refine ih (handle_images_album reg e) gid ?_
        rw [hstep, lookupGroup, if_neg hg]
        exact h

/-- C3: when every attachment event of an album group arrives before the flush
fires, the flushed batch holds exactly the file ids of that group's events, in
arrival order, duplicates preserved — nothing added, dropped or deduplicated
(events of other groups may be interleaved freely). -/
theorem album_order_C3 (events : List AlbumEvent) (reg : Registry) (gid : String)
    (e0 : AlbumEvent) (es : List AlbumEvent)
    (hfresh : lookupGroup reg gid = none)
    (hfilter : events.filter (fun e => e.media_group_id == gid) = e0 :: es) :
    (flushStep (events.foldl handle_images_album reg) gid).2
      = some ⟨e0.file_id :: es.map AlbumEvent.file_id, pyStrip e0.caption, e0.user_id⟩ := by
  have h := album_fold_none events reg gid hfresh
  rw [hfilter] at h
  unfold flushStep
  rw [h]

/-- C3 witness: two events of group `g` (with a duplicate file id) and one of
group `h`, flushed after all arrived. -/
theorem album_order_C3_witness :
    (flushStep (([⟨"g", "f1", "", 1⟩, ⟨"h", "fX", "", 2⟩, ⟨"g", "f1", "hi", 1⟩]
            : List AlbumEvent).foldl handle_images_album ([] : Registry)) "g").2
      = some ⟨["f1", "f1"], pyStrip "", 1⟩ :=
  album_order_C3 [⟨"g", "f1", "", 1⟩, ⟨"h", "fX", "", 2⟩, ⟨"g", "f1", "hi", 1⟩] []
    "g" ⟨"g", "f1", "", 1⟩ [⟨"g", "f1", "hi", 1⟩] rfl (by decide)

/-- C6 counterexample: a second event of an open group carries a caption while
the group's caption is empty, yet the group does not adopt it — the caption
stays empty. -/
theorem album_caption_C6_counterexample :
    (lookupGroup (handle_images_album
          (handle_images_album [] ⟨"g1", "f1", "", 7⟩)
          ⟨"g1", "f2", "make it blue", 7⟩) "g1").map GroupData.caption
      ≠ some "make it blue" := by
  decide

/-- C6 amended: an event matching an open group appends only its file id; its
caption is ignored even when the group's caption is empty, so the flushed
instruction is always the first event's caption. -/
theorem album_caption_C6_amended (reg : Registry) (e : AlbumEvent) (g : GroupData)
    (h : lookupGroup reg e.media_group_id = some g) :
    lookupGroup (handle_images_album reg e) e.media_group_id
      = some ⟨g.file_ids ++ [e.file_id], g.caption, g.user_id⟩ := by
  have hstep : handle_images_album reg e
      = setGroup reg e.media_group_id { g with file_ids := g.file_ids ++ [e.file_id] } := by
    unfold handle_images_album
    rw [h]
  rw [hstep]
  exact lookup_setGroup_self reg e.media_group_id g _ h

/-- C6 amended, witness: a group with caption `"first"` keeps it when a
captioned second event arrives. -/
theorem album_caption_C6_amended_witness :
    lookupGroup (handle_images_album [("g1", (⟨["f1"], "first", 7⟩ : GroupData))]
          ⟨"g1", "f2", "ignored", 7⟩) "g1"
      = some ⟨["f1"] ++ ["f2"], "first", 7⟩ :=
  album_caption_C6_amended [("g1", ⟨["f1"], "first", 7⟩)] ⟨"g1", "f2", "ignored", 7⟩
    ⟨["f1"], "first", 7⟩ rfl

theorem lookup_of_not_mem_keys {reg : Registry} {gid : String}
    (h : gid ∉ reg.map Prod.fst) : lookupGroup reg gid = none := by
  induction reg with
  | nil => rfl
  | cons p rest ih =>
    obtain ⟨k, g⟩ := p
    simp only [List.map_cons, List.mem_cons] at h
    push_neg at h
    rw [lookupGroup, if_neg (fun hk => h.1 hk.symm)]
    exact ih h.2

theorem eraseGroup_sublist (reg : Registry) (gid : String) :
    (eraseGroup reg gid).Sublist reg := by
  induction reg with
  | nil => exact List.Sublist.refl []
  | cons p rest ih =>
    obtain ⟨k, g⟩ := p
    by_cases hk : k = gid
    · rw [eraseGroup, if_pos hk]
      exact List.sublist_cons_self (k, g) rest
    · rw [eraseGroup, if_neg hk]
      exact List.Sublist.cons₂ (k, g) ih

theorem keysNodup_eraseGroup {reg : Registry} (gid : String) (h : keysNodup reg) :
    keysNodup (eraseGroup reg gid) :=
  List.Nodup.sublist (List.Sublist.map Prod.fst (eraseGroup_sublist reg gid)) h

theorem lookup_eraseGroup_self (reg : Registry) (gid : String) (h : keysNodup reg) :
    lookupGroup (eraseGroup reg gid) gid = none := by
  induction reg with
  | nil => rfl
  | cons p rest ih =>
    obtain ⟨k, g⟩ := p
    have hnd := List.nodup_cons.mp h
    by_cases hk : k = gid
    · rw [eraseGroup, if_pos hk]
      refine lookup_of_not_mem_keys ?_
      rw [← hk]
      exact hnd.1
    · rw [eraseGroup, if_neg hk, lookupGroup, if_neg hk]
      exact ih hnd.2

theorem lookup_eraseGroup_none {reg : Registry} {gid : String} (gid' : String)
    (h : lookupGroup reg gid = none) :
    lookupGroup (eraseGroup reg gid') gid = none := by
  induction reg with
  | nil => rfl
  | cons p rest ih =>
    obtain ⟨k, g⟩ := p
    by_cases hk : k = gid
    · rw [lookupGroup, if_pos hk] at h
      exact absurd h (by simp)
    · rw [lookupGroup, if_neg hk] at h
      by_cases hk' : k = gid'
      · rw [eraseGroup, if_pos hk']
        exact h
      · rw [eraseGroup, if_neg hk', lookupGroup, if_neg hk]
        exact ih h

theorem flushStep_of_none {reg : Registry} {gid : String}
    (h : lookupGroup reg gid = none) : flushStep reg gid = (reg, none) := by
  unfold flushStep
  rw [h]

theorem flushStep_of_some {reg : Registry} {gid : String} {g : GroupData}
    (h : lookupGroup reg gid = some g) :
    flushStep reg gid = (eraseGroup reg gid, some g) := by
  unfold flushStep
  rw [h]

theorem runFlushes_cons_none {reg : Registry} {gid' : String} (rest : List String)
    (h : lookupGroup reg gid' = none) :
    runFlushes reg (gid' :: rest) = runFlushes reg rest := by
  rw [runFlushes, flushStep_of_none h]

theorem runFlushes_cons_some {reg : Registry} {gid' : String} {g : GroupData}
    (rest : List String) (h : lookupGroup reg gid' = some g) :
    runFlushes reg (gid' :: rest)
      = ((runFlushes (eraseGroup reg gid') rest).1,
          (gid', g) :: (runFlushes (eraseGroup reg gid') rest).2) := by
  rw [runFlushes, flushStep_of_some h]

theorem runFlushes_countP_zero (gids : List String) :
    ∀ (reg : Registry) (gid : String), lookupGroup reg gid = none →
      ((runFlushes reg gids).2.countP (fun p => p.1 == gid)) = 0 := by
  induction gids with
  | nil => intro reg gid _; rfl
  | cons gid' rest ih =>
    intro reg gid h
    cases hl : lookupGroup reg gid' with
    | none =>
      rw [runFlushes_cons_none rest hl]
      exact ih reg gid h
    | some g =>
      rw [runFlushes_cons_some rest hl]
      have hne : (gid' == gid) = false := by
        refine beq_eq_false_iff_ne.mpr fun hEq => ?_
        rw [hEq] at hl
        rw [h] at hl
        cases hl
      show List.countP (fun p => p.1 == gid)
          ((gid', g) :: (runFlushes (eraseGroup reg gid') rest).2) = 0
      rw [List.countP_cons_of_neg _ _
        (by show ¬ ((gid' == gid) = true); rw [hne]; exact Bool.false_ne_true)]
      exact ih (eraseGroup reg gid') gid (lookup_eraseGroup_none gid' h)

theorem runFlushes_atMostOnce (gids : List String) :
    ∀ (reg : Registry) (gid : String), keysNodup reg →
      ((runFlushes reg gids).2.countP (fun p => p.1 == gid)) ≤ 1 := by
  induction gids with
  | nil => intro reg gid _; exact Nat.zero_le 1
  | cons gid' rest ih =>
    intro reg gid h
    cases hl : lookupGroup reg gid' with
    | none =>
      rw [runFlushes_cons_none rest hl]
      exact ih reg gid h
    | some g =>
      rw [runFlushes_cons_some rest hl]
      show List.countP (fun p => p.1 == gid)
          ((gid', g) :: (runFlushes (eraseGroup reg gid') rest).2) ≤ 1
      by_cases hg : gid' = gid
      · have hb : (gid' == gid) = true := beq_iff_eq.mpr hg
        rw [List.countP_cons_of_pos _ _ (by show ((gid' == gid) = true); exact hb)]
        have hz : ((runFlushes (eraseGroup reg gid') rest).2.countP
            (fun p => p.1 == gid)) = 0 := by
          refine runFlushes_countP_zero rest (eraseGroup reg gid') gid ?_
          rw [← hg]
          exact lookup_eraseGroup_self reg gid' h
        omega
      · have hb : (gid' == gid) = false := beq_eq_false_iff_ne.mpr hg
        rw [List.countP_cons_of_neg _ _
          (by show ¬ ((gid' == gid) = true); rw [hb]; exact Bool.false_ne_true)]
        exact ih (eraseGroup reg gid') gid (keysNodup_eraseGroup gid' h)

/-- C7: a flush pops its group from the registry before any processing — after
the flush the group id is gone; a flush of an absent group id is a no-op; and
over any sequence of flush invocations each group id is processed at most
once. -/
theorem flush_once_C7 (reg : Registry) (gid : String) (gids : List String)
    (h : keysNodup reg) :
    (lookupGroup reg gid = none → flushStep reg gid = (reg, none))
      ∧ lookupGroup (flushStep reg gid).1 gid = none
      ∧ (runFlushes reg gids).2.countP (fun p => p.1 == gid) ≤ 1 := by
  refine ⟨fun hnone => flushStep_of_none hnone, ?_, runFlushes_atMostOnce gids reg gid h⟩
  cases hl : lookupGroup reg gid with
  | none => rw [flushStep_of_none hl]; exact hl
  | some g =>
    rw [flushStep_of_some hl]
    exact lookup_eraseGroup_self reg gid h

/-- C7 witness: flushing the same group id twice processes it exactly once. -/
theorem flush_once_C7_witness :
    (runFlushes [("a", (⟨["f"], "", 1⟩ : GroupData))] ["a", "a"]).2.countP
        (fun p => p.1 == "a") ≤ 1 :=
  (flush_once_C7 [("a", ⟨["f"], "", 1⟩)] "a" ["a", "a"] (by decide)).2.2

/-- C9: in `dall-e-2` mode, a dispatched batch of more than one image reaches
the backend edit call with only the first image — the rest are dropped (and
the size is forced to 1024x1024). -/
theorem dalle2_first_image_C9 {α : Type u} (a b : α) (rest : List α)
    (prompt quality size fmt : String)
    (hlen : (a :: b :: rest).length ≤ 10) (hp : pyStrip prompt ≠ "") :
    ImageProcessor.process (a :: b :: rest) prompt (some "dall-e-2") quality size fmt
      = Except.ok ⟨"dall-e-2", [a], ImageProcessor.SYSTEM_PROMPT ++ pyStrip prompt,
          quality, "1024x1024", fmt⟩ := by
  unfold ImageProcessor.process
  rw [if_neg (not_not_intro ⟨by simp only [List.length_cons]; omega, hlen⟩)]
  rw [if_neg hp]
  rw [if_pos ⟨rfl, by simp only [List.length_cons]; omega⟩,
    if_pos ⟨rfl, by simp only [List.length_cons]; omega⟩]
  rfl

/-- C9 witness: a concrete two-image batch in `dall-e-2` mode. -/
theorem dalle2_first_image_C9_witness :
    ImageProcessor.process [1, 2] "go" (some "dall-e-2") "high" "1536x1024" "png"
      = Except.ok ⟨"dall-e-2", [1], ImageProcessor.SYSTEM_PROMPT ++ pyStrip "go",
          "high", "1024x1024", "png"⟩ :=
  dalle2_first_image_C9 1 2 ([] : List Nat) "go" "high" "1536x1024" "png"
    (by decide) (by decide)
